import Mathlib

/-!
Shallow embedding of the event / payment / registration core of the
tg_bot_meetups bot (src/database.py, src/bot.py, src/payments.py,
src/states.py).

Modelling conventions:
  * users are identified by their numeric ids (Nat);
  * datetimes are integer timestamps in seconds (Int), so that
    timedelta(days=1) is the constant 86400;
  * an Event row carries its participant list (the event_participants
    many-to-many table restricted to that event), as a list of user ids;
  * the ORM session is implicit: each database function becomes a pure
    function from the old table contents to the new ones;
  * Stripe is external: signature verification and JSON parsing of the
    webhook payload are abstract parameters of the webhook handler.
-/

/-- Embeds class Event of src/database.py.  The participants relationship is
the list of participating user ids. -/
structure Event where
  id : Nat
  title : String
  description : String
  location : String
  event_date : Int
  max_participants : Option Nat
  price : Option Nat
  event_type : String
  difficulty_level : Option String
  music_genre : Option String
  max_teams : Option Nat
  team_size : Option Nat
  theme : Option String
  creator_id : Nat
  is_active : Bool
  notification_sent : Bool
  participants : List Nat
  deriving DecidableEq, Repr

/-- The guard of join_event (src/database.py line 201):
`if event.max_participants and len(event.participants) >= event.max_participants`.
Python truthiness makes both None and 0 falsy, so the guard only fires when
the cap is present and nonzero. -/
def capacity_reached (e : Event) : Bool :=
  match e.max_participants with
  | none => false
  | some m => !(m == 0) && decide (m ≤ e.participants.length)

/-- Embeds join_event (src/database.py lines 200-206).  Returns the boolean
result (True = Admitted, False = Full) together with the updated event. -/
def join_event (e : Event) (u : Nat) : Bool × Event :=
  if capacity_reached e then (false, e)
  else if u ∈ e.participants then (true, e)
  else (true, { e with participants := e.participants ++ [u] })

/-- Embeds leave_event (src/database.py lines 208-211): removes the user if
present (List.erase removes the first occurrence, a no-op when absent). -/
def leave_event (e : Event) (u : Nat) : Event :=
  { e with participants := e.participants.erase u }

/-- Embeds cancel_event (src/database.py lines 213-215). -/
def cancel_event (e : Event) : Event :=
  { e with is_active := false }

/-- Ascending order on event dates, the ORDER BY of get_upcoming_events. -/
def date_le (a b : Event) : Prop := a.event_date ≤ b.event_date

/-- Descending order on event dates, the ORDER BY of get_past_events. -/
def date_ge (a b : Event) : Prop := b.event_date ≤ a.event_date

instance : DecidableRel date_le := fun a b => Int.decLe a.event_date b.event_date

instance : DecidableRel date_ge := fun a b => Int.decLe b.event_date a.event_date

instance : IsTotal Event date_le := ⟨fun a b => le_total a.event_date b.event_date⟩

instance : IsTrans Event date_le := ⟨fun _ _ _ h h2 => le_trans h h2⟩

instance : IsTotal Event date_ge := ⟨fun a b => le_total b.event_date a.event_date⟩

instance : IsTrans Event date_ge := ⟨fun _ _ _ h h2 => le_trans h2 h⟩

/-- Embeds get_upcoming_events (src/database.py lines 217-224): active events
with event_date strictly after now, ordered by event_date ascending. -/
def get_upcoming_events (events : List Event) (now : Int) : List Event :=
  List.insertionSort date_le
    (events.filter (fun e => decide (now < e.event_date) && e.is_active))

/-- timedelta(days=1) in seconds. -/
def one_day : Int := 86400

/-- Embeds get_events_for_notification (src/database.py lines 226-235).
SQL BETWEEN is inclusive at both endpoints, so the window is the closed
interval from now to now + one_day. -/
def get_events_for_notification (events : List Event) (now : Int) : List Event :=
  events.filter (fun e =>
    decide (now ≤ e.event_date) && decide (e.event_date ≤ now + one_day)
      && !e.notification_sent && e.is_active)

/-- Embeds mark_notification_sent (src/database.py lines 237-239). -/
def mark_notification_sent (e : Event) : Event :=
  { e with notification_sent := true }

/-- Embeds get_past_events (src/database.py lines 276-292): active events with
event_date strictly before now, ordered by event_date descending. -/
def get_past_events (events : List Event) (now : Int) : List Event :=
  List.insertionSort date_ge
    (events.filter (fun e => decide (e.event_date < now) && e.is_active))

/-- Embeds class Payment of src/database.py. -/
structure Payment where
  stripe_payment_id : String
  amount : Nat
  currency : String
  status : String
  user_id : Nat
  event_id : Nat
  deriving DecidableEq, Repr

/-- The WHERE clause of update_payment_status. -/
def has_intent (pid : String) (q : Payment) : Bool :=
  q.stripe_payment_id == pid

/-- Sets the status of the first payment whose stripe_payment_id matches;
the single matching ORM row object mutated by update_payment_status. -/
def set_status_first : List Payment → String → String → List Payment
  | [], _, _ => []
  | q :: qs, pid, st =>
    if q.stripe_payment_id == pid then { q with status := st } :: qs
    else q :: set_status_first qs pid st

/-- Embeds update_payment_status (src/database.py lines 262-274).
scalar_one_or_none returns the single matching row, or None when there is no
match, and raises MultipleResultsFound when several rows match; the raising
case is modelled as the outer none. -/
def update_payment_status (payments : List Payment) (pid st : String) :
    Option (Option Payment × List Payment) :=
  match payments.filter (has_intent pid) with
  | [] => some (none, payments)
  | [q] => some (some { q with status := st }, set_status_first payments pid st)
  | _ => none

/-- The two fields the webhook handler reads out of the parsed JSON payload:
event_json["type"] and event_json["data"]["object"]["id"]. -/
structure WebhookEvent where
  eventType : String
  intentId : String
  deriving DecidableEq, Repr

/-- The database state the webhook handler can touch. -/
structure DB where
  events : List Event
  payments : List Payment
  deriving DecidableEq, Repr

/-- The join_event(session, payment.event, payment.user) call of
stripe_webhook, applied to the events table: the payment's event row is
replaced by the result of joining the payment's user. -/
def admit_paid_user (events : List Event) (p : Payment) : List Event :=
  events.map (fun e => if e.id == p.event_id then (join_event e p.user_id).2 else e)

/-- Embeds the body of stripe_webhook (src/bot.py lines 949-986) as written,
taking the signature verifier as a parameter: verify stands for whatever the
name verify_webhook_signature evaluates to, parseEvent for json.loads plus
the key lookups (none when either raises, which the surrounding try
swallows).  An unverified payload returns immediately; only the event type
payment_intent.succeeded updates anything: it sets the payment's status to
succeeded and then joins the payment's user to the payment's event.  Every
other event type falls through without touching the database.  This is an
over-approximation of the program: see stripe_webhook_actual for the
executed behavior, in which the name verify_webhook_signature never
resolves. -/
def stripe_webhook (verify : String → String → Bool)
    (parseEvent : String → Option WebhookEvent) (db : DB)
    (payload sig : String) : DB :=
  if verify payload sig then
    match parseEvent payload with
    | none => db
    | some w =>
      if w.eventType == "payment_intent.succeeded" then
        match update_payment_status db.payments w.intentId "succeeded" with
        | none => db
        | some (none, qs) => { db with payments := qs }
        | some (some p, qs) => { events := admit_paid_user db.events p, payments := qs }
      else db
  else db

/-- The name resolution of verify_webhook_signature inside bot.py: line 64
is `from payments import create_payment_intent, format_price`, and no other
line imports or defines verify_webhook_signature, so evaluating the name at
bot.py line 962 raises NameError regardless of the payload. -/
def verify_webhook_signature_lookup : Except String (String → String → Bool) :=
  Except.error "NameError: name verify_webhook_signature is not defined"

/-- Embeds stripe_webhook as the program actually executes it: the handler
body evaluates the unbound name verify_webhook_signature first (bot.py line
962), which raises NameError; the except clause at line 984 catches and
logs the exception and the handler returns, leaving the database untouched.
Had the name resolved, the body would proceed as stripe_webhook. -/
def stripe_webhook_actual (parseEvent : String → Option WebhookEvent)
    (db : DB) (payload sig : String) : DB :=
  match verify_webhook_signature_lookup with
  | Except.ok verify => stripe_webhook verify parseEvent db payload sig
  | Except.error _ => db

/-- A sequence of webhook deliveries, applied in order. -/
def run_webhooks (verify : String → String → Bool)
    (parseEvent : String → Option WebhookEvent) : DB → List (String × String) → DB
  | db, [] => db
  | db, (payload, sig) :: rest =>
    run_webhooks verify parseEvent (stripe_webhook verify parseEvent db payload sig) rest

/-- One join or leave operation on an event, as issued by the bot handlers. -/
inductive EventOp where
  | join (u : Nat)
  | leave (u : Nat)
  deriving DecidableEq, Repr

/-- Applies one operation to an event (the returned Admitted/Full flag of a
join is dropped; only the state matters here). -/
def applyOp (e : Event) : EventOp → Event
  | .join u => (join_event e u).2
  | .leave u => leave_event e u

/-- Applies a sequence of join/leave operations in order. -/
def applyOps (e : Event) (ops : List EventOp) : Event :=
  ops.foldl applyOp e

/-- A concrete event template for closed instances: a free, active party with
no cap and no participants. -/
def baseEvent : Event where
  id := 1
  title := "t"
  description := "d"
  location := "loc"
  event_date := 0
  max_participants := none
  price := none
  event_type := "party"
  difficulty_level := none
  music_genre := none
  max_teams := none
  team_size := none
  theme := none
  creator_id := 0
  is_active := true
  notification_sent := false
  participants := []

/-- A verifier accepting every payload, for concrete instances. -/
def acceptAll : String → String → Bool := fun _ _ => true

/-- A verifier rejecting every payload, for concrete instances. -/
def rejectAll : String → String → Bool := fun _ _ => false

/-- A payload reader returning a fixed webhook event, for concrete
instances. -/
def constRead (w : WebhookEvent) : String → Option WebhookEvent := fun _ => some w

/-- A fixed succeeded webhook event for intent pi_1. -/
def succRead : String → Option WebhookEvent :=
  constRead { eventType := "payment_intent.succeeded", intentId := "pi_1" }

/-- A fixed non-succeeded webhook event for intent pi_1. -/
def failRead : String → Option WebhookEvent :=
  constRead { eventType := "payment_intent.payment_failed", intentId := "pi_1" }

/-- A pending payment of user 7 for event 1 with intent id pi_1. -/
def pendingPayment : Payment where
  stripe_payment_id := "pi_1"
  amount := 4900
  currency := "usd"
  status := "pending"
  user_id := 7
  event_id := 1

/-- The base event with max_participants = 0. -/
def zeroCapEvent : Event :=
  { baseEvent with max_participants := some 0 }

/-- The base event with a cap of one participant. -/
def capOneEvent : Event :=
  { baseEvent with max_participants := some 1 }

/-- The base event, cancelled, with a cap of two. -/
def cancelledEvent : Event :=
  { baseEvent with is_active := false, max_participants := some 2 }

/-- The base event one below capacity: cap two, user 5 already
participating. -/
def oneSlotEvent : Event :=
  { baseEvent with max_participants := some 2, participants := [5] }

/-- The base event whose date is exactly one day after time 0. -/
def boundaryEvent : Event :=
  { baseEvent with event_date := 86400 }

/-- A database whose only event has one slot left and whose only payment is
pending. -/
def oneSlotDB : DB where
  events := [oneSlotEvent]
  payments := [pendingPayment]

/-- A database with the base event and one pending payment. -/
def pendingDB : DB where
  events := [baseEvent]
  payments := [pendingPayment]

/-- Embeds RegistrationStates of src/states.py. -/
inductive RegState where
  | waiting_for_language
  | waiting_for_name
  | waiting_for_phone
  | waiting_for_country
  | waiting_for_about
  deriving DecidableEq, Repr

/-- The registration-relevant columns of class User (src/database.py). -/
structure RegUser where
  language : String
  real_name : Option String
  phone_number : Option String
  country : Option String
  about : Option String
  registration_complete : Bool
  deriving DecidableEq, Repr

/-- The aiogram FSMContext for one user: the current state (none when no
session is active or after state.clear()) and the language recorded by
state.update_data in process_language_selection. -/
structure RegSession where
  state : Option RegState
  language_data : Option String
  deriving DecidableEq, Repr

/-- An empty session: no registration flow in progress. -/
def noSession : RegSession where
  state := none
  language_data := none

/-- One inbound update of the registration flow: the /start command, a
language-choice callback (data lang_xx), or a plain message carrying an
optional text and an optional shared contact phone number. -/
inductive RegInput where
  | start
  | langChoice (lang : String)
  | msg (text : Option String) (contactPhone : Option String)
  deriving DecidableEq, Repr

/-- Embeds the registration handlers of src/bot.py: cmd_start (lines
159-194), process_language_selection (217-236), process_name (238-261),
process_phone (263-289), process_country (291-314) and process_about
(316-377).  Each handler mutates the durable user row and the FSM session;
invalid input re-prompts without advancing the state, the /skip sentinel in
the country and about steps advances without storing a value, and the about
step finishes by setting registration_complete and clearing the session. -/
def reg_step : RegUser × RegSession → RegInput → RegUser × RegSession
  | (u, s), .start =>
    if u.registration_complete then (u, s)
    else (u, { state := some .waiting_for_language, language_data := none })
  | (u, _), .langChoice lang =>
    ({ u with language := lang },
     { state := some .waiting_for_name, language_data := some lang })
  | (u, s), .msg text contactPhone =>
    match s.state with
    | some .waiting_for_name =>
      match text with
      | none => (u, s)
      | some t =>
        if t.length < 2 then (u, s)
        else ({ u with real_name := some t }, { s with state := some .waiting_for_phone })
    | some .waiting_for_phone =>
      match contactPhone with
      | none => (u, s)
      | some ph =>
        ({ u with phone_number := some ph }, { s with state := some .waiting_for_country })
    | some .waiting_for_country =>
      if text == some "/skip" then
        ({ u with country := none }, { s with state := some .waiting_for_about })
      else ({ u with country := text }, { s with state := some .waiting_for_about })
    | some .waiting_for_about =>
      if text == some "/skip" then
        ({ u with about := none, registration_complete := true }, noSession)
      else ({ u with about := text, registration_complete := true }, noSession)
    | _ => (u, s)

/-- Runs a sequence of registration inputs in order. -/
def reg_run (us : RegUser × RegSession) (inputs : List RegInput) : RegUser × RegSession :=
  inputs.foldl reg_step us

/-- A user row as first created by get_or_create_user: registration not yet
complete, default language en, profile fields empty. -/
def freshUser : RegUser where
  language := "en"
  real_name := none
  phone_number := none
  country := none
  about := none
  registration_complete := false

/-! Helper lemmas about join_event. -/

/-- join_event never changes the id of the event. -/
theorem join_event_id_eq (e : Event) (u : Nat) : (join_event e u).2.id = e.id := by
  by_cases hc : capacity_reached e
  · simp [join_event, hc]
  · by_cases hmem : u ∈ e.participants <;> simp [join_event, hc, hmem]

/-- join_event never changes the cap of the event. -/
theorem join_event_max_eq (e : Event) (u : Nat) :
    (join_event e u).2.max_participants = e.max_participants := by
  by_cases hc : capacity_reached e
  · simp [join_event, hc]
  · by_cases hmem : u ∈ e.participants <;> simp [join_event, hc, hmem]

/-- When the capacity guard does not fire, join_event admits the user and the
user is a participant afterwards. -/
theorem join_event_admits (e : Event) (u : Nat) (hc : capacity_reached e = false) :
    (join_event e u).1 = true ∧ u ∈ (join_event e u).2.participants := by
  by_cases hmem : u ∈ e.participants
  · simp [join_event, hc, hmem]
  · simp [join_event, hc, hmem]

/-- A nonzero cap that is not yet reached keeps the capacity guard off. -/
theorem capacity_reached_false_of_lt (e : Event) (m : Nat)
    (hm : e.max_participants = some m) (hlt : e.participants.length < m) :
    capacity_reached e = false := by
  have hnot : ¬ m ≤ e.participants.length := by omega
  simp [capacity_reached, hm, hnot]

/-- C10: join_event never consults is_active, so a cancelled event with
remaining capacity still admits any user: the join returns Admitted (True)
and the user is in the participant set afterwards. -/
theorem join_ignores_cancellation (e : Event) (u : Nat)
    (hact : e.is_active = false)
    (hcap : e.max_participants = none ∨
      ∃ m, e.max_participants = some m ∧ e.participants.length < m) :
    (join_event e u).1 = true ∧ u ∈ (join_event e u).2.participants := by
  have hc : capacity_reached e = false := by
    rcases hcap with h | ⟨m, hm, hlt⟩
    · simp [capacity_reached, h]
    · exact capacity_reached_false_of_lt e m hm hlt
  exact join_event_admits e u hc

/-- Witness for join_ignores_cancellation: user 7 joins the cancelled
two-slot event. -/
theorem join_ignores_cancellation_witness :
    cancelledEvent.is_active = false ∧
      (join_event cancelledEvent 7).1 = true ∧
      7 ∈ (join_event cancelledEvent 7).2.participants :=
  ⟨rfl, join_ignores_cancellation cancelledEvent 7 rfl
    (Or.inr ⟨2, rfl, by decide⟩)⟩

/-- applyOp never changes the cap of the event. -/
theorem applyOp_max_eq (e : Event) (op : EventOp) :
    (applyOp e op).max_participants = e.max_participants := by
  cases op with
  | join u => exact join_event_max_eq e u
  | leave u => rfl

/-- One join or leave preserves the capacity bound when the cap is positive. -/
theorem applyOp_length_le (e : Event) (op : EventOp) (N : Nat)
    (hm : e.max_participants = some N) (hN : 1 ≤ N)
    (hlen : e.participants.length ≤ N) :
    (applyOp e op).participants.length ≤ N := by
  cases op with
  | leave u =>
    calc (leave_event e u).participants.length
        = (e.participants.erase u).length := rfl
      _ ≤ e.participants.length := List.length_erase_le _ _
      _ ≤ N := hlen
  | join u =>
    by_cases hc : capacity_reached e
    · simpa [applyOp, join_event, hc] using hlen
    · by_cases hmem : u ∈ e.participants
      · simpa [applyOp, join_event, hc, hmem] using hlen
      · have hlt : e.participants.length < N := by
          rcases Nat.lt_or_ge e.participants.length N with h | h
          · exact h
          · exfalso
            apply hc
            simp [capacity_reached, hm]
            exact ⟨by omega, h⟩
        have hp : (applyOp e (.join u)).participants = e.participants ++ [u] := by
          simp [applyOp, join_event, hc, hmem]
        rw [hp]
        simp only [List.length_append, List.length_singleton]
        omega

/-- Any sequence of joins and leaves preserves the capacity bound and the
cap itself, when the cap is positive. -/
theorem applyOps_length_le (ops : List EventOp) (e : Event) (N : Nat)
    (hm : e.max_participants = some N) (hN : 1 ≤ N)
    (hlen : e.participants.length ≤ N) :
    (applyOps e ops).participants.length ≤ N ∧
      (applyOps e ops).max_participants = some N := by
  induction ops generalizing e with
  | nil => exact ⟨hlen, hm⟩
  | cons op rest ih =>
    have h2 : (applyOp e op).max_participants = some N := by
      rw [applyOp_max_eq]; exact hm
    have h1 := applyOp_length_le e op N hm hN hlen
    simpa [applyOps, List.foldl_cons] using ih (applyOp e op) h2 h1

/-- Counterexample for C1 at N = 0: Python truthiness disables the capacity
guard for max_participants = 0, so with a cap of zero and zero (that is, N)
distinct participants present, a join still returns Admitted and grows the
participant set to 1 > 0. -/
theorem zero_cap_join_admits :
    zeroCapEvent.max_participants = some 0 ∧
      zeroCapEvent.participants.length = 0 ∧
      join_event zeroCapEvent 1 =
        (true, { zeroCapEvent with participants := [1] }) := by
  decide

/-- C1 (amended): for every event whose cap is set to a positive N and whose
participant count is at most N, every sequence of join and leave operations
keeps the count at most N, and a join attempted when N participants are
present returns Full without mutating the event.  (For N = 0 the code skips
the capacity guard entirely.) -/
theorem capacity_invariant_of_pos_cap (e : Event) (N : Nat) (ops : List EventOp)
    (u : Nat) (hm : e.max_participants = some N) (hN : 1 ≤ N)
    (hlen : e.participants.length ≤ N) :
    (applyOps e ops).participants.length ≤ N ∧
      ((applyOps e ops).participants.length = N →
        join_event (applyOps e ops) u = (false, applyOps e ops)) := by
  obtain ⟨h1, h2⟩ := applyOps_length_le ops e N hm hN hlen
  refine ⟨h1, fun hfull => ?_⟩
  have hc : capacity_reached (applyOps e ops) = true := by
    simp [capacity_reached, h2, hfull]
    omega
  simp [join_event, hc]

/-- Witness for capacity_invariant_of_pos_cap: the spec scenario on a cap-one
event (A joins, B bounces, A leaves, B joins), ending with one participant,
at which point a further join by user 5 returns Full without mutation. -/
theorem capacity_invariant_of_pos_cap_witness :
    capOneEvent.max_participants = some 1 ∧
      (applyOps capOneEvent [EventOp.join 1, EventOp.join 2, EventOp.leave 1,
          EventOp.join 2]).participants.length ≤ 1 ∧
      join_event (applyOps capOneEvent [EventOp.join 1, EventOp.join 2,
          EventOp.leave 1, EventOp.join 2]) 5 =
        (false, applyOps capOneEvent [EventOp.join 1, EventOp.join 2,
          EventOp.leave 1, EventOp.join 2]) :=
  ⟨rfl,
    (capacity_invariant_of_pos_cap capOneEvent 1
      [EventOp.join 1, EventOp.join 2, EventOp.leave 1, EventOp.join 2] 5
      rfl (by decide) (by decide)).1,
    (capacity_invariant_of_pos_cap capOneEvent 1
      [EventOp.join 1, EventOp.join 2, EventOp.leave 1, EventOp.join 2] 5
      rfl (by decide) (by decide)).2 (by decide)⟩

/-- Counterexample for C6: on a cap-one event the first join by user 7 is
admitted, but the second join by the same user hits the capacity guard
(which runs before the membership test) and returns Full, not Admitted. -/
theorem double_join_full_returns_full :
    (join_event capOneEvent 7).1 = true ∧
      (join_event (join_event capOneEvent 7).2 7).1 = false := by
  decide

/-- C6 (amended): joining twice with the same user always leaves the
participant set unchanged after the second join; both joins return Admitted
provided the event is still below capacity after the first join, but when
the first join fills the event the second join by the same user returns
Full, since the capacity guard runs before the membership test. -/
theorem join_idempotent_below_capacity (e : Event) (u : Nat) :
    (join_event (join_event e u).2 u).2 = (join_event e u).2 ∧
      (capacity_reached (join_event e u).2 = false →
        (join_event e u).1 = true ∧ (join_event (join_event e u).2 u).1 = true) := by
  by_cases hc : capacity_reached e
  · have h1 : join_event e u = (false, e) := by simp [join_event, hc]
    rw [h1]
    have h2 : join_event e u = (false, e) := h1
    constructor
    · rw [h1]
    · intro hfree
      exact absurd hfree (by simp [hc])
  · by_cases hmem : u ∈ e.participants
    · have h1 : join_event e u = (true, e) := by simp [join_event, hc, hmem]
      rw [h1]
      constructor
      · rw [h1]
      · intro _
        refine ⟨rfl, ?_⟩
        simp [join_event, hc, hmem]
    · have h1 : join_event e u =
          (true, { e with participants := e.participants ++ [u] }) := by
        simp [join_event, hc, hmem]
      rw [h1]
      have hmem2 : u ∈ ({ e with participants := e.participants ++ [u] } : Event).participants := by
        simp
      by_cases hc2 : capacity_reached { e with participants := e.participants ++ [u] }
      · constructor
        · simp [join_event, hc2]
        · intro hfree
          exact absurd hfree (by simp [hc2])
      · constructor
        · simp [join_event, hc2, hmem2]
        · intro _
          exact ⟨rfl, by simp [join_event, hc2, hmem2]⟩

/-- Witness for join_idempotent_below_capacity: user 3 joins the uncapped
base event twice; the event stays below capacity, so both joins are
Admitted and the second leaves the participant set unchanged. -/
theorem join_idempotent_below_capacity_witness :
    capacity_reached (join_event baseEvent 3).2 = false ∧
      (join_event (join_event baseEvent 3).2 3).2 = (join_event baseEvent 3).2 ∧
      (join_event baseEvent 3).1 = true ∧
      (join_event (join_event baseEvent 3).2 3).1 = true :=
  ⟨by decide, (join_idempotent_below_capacity baseEvent 3).1,
    ((join_idempotent_below_capacity baseEvent 3).2 (by decide)).1,
    ((join_idempotent_below_capacity baseEvent 3).2 (by decide)).2⟩

/-- C7: get_upcoming_events returns exactly the active events dated strictly
after now, sorted ascending by date, and get_past_events returns exactly the
active events dated strictly before now, sorted descending by date.  Both
are pure functions of the stored events in this embedding, so neither
mutates any state. -/
theorem upcoming_past_exact (events : List Event) (now : Int) :
    ((get_upcoming_events events now).Perm
        (events.filter (fun e => decide (now < e.event_date) && e.is_active)) ∧
      (get_upcoming_events events now).Sorted date_le ∧
      ∀ e, e ∈ get_upcoming_events events now ↔
        e ∈ events ∧ e.is_active = true ∧ now < e.event_date) ∧
    ((get_past_events events now).Perm
        (events.filter (fun e => decide (e.event_date < now) && e.is_active)) ∧
      (get_past_events events now).Sorted date_ge ∧
      ∀ e, e ∈ get_past_events events now ↔
        e ∈ events ∧ e.is_active = true ∧ e.event_date < now) := by
  refine ⟨⟨List.perm_insertionSort date_le _,
      List.sorted_insertionSort date_le _, fun e => ?_⟩,
    ⟨List.perm_insertionSort date_ge _,
      List.sorted_insertionSort date_ge _, fun e => ?_⟩⟩
  · simp only [get_upcoming_events, List.mem_insertionSort, List.mem_filter,
      Bool.and_eq_true, decide_eq_true_eq]
    tauto
  · simp only [get_past_events, List.mem_insertionSort, List.mem_filter,
      Bool.and_eq_true, decide_eq_true_eq]
    tauto

/-- Counterexample for C8: SQL BETWEEN is inclusive at both endpoints, so an
active, unnotified event dated exactly now + 24h (here now = 0) is returned
by get_events_for_notification, while the claim's half-open window excludes
it. -/
theorem notification_window_upper_bound_included :
    boundaryEvent.event_date = 0 + one_day ∧
      boundaryEvent.is_active = true ∧
      boundaryEvent.notification_sent = false ∧
      boundaryEvent ∈ get_events_for_notification [boundaryEvent] 0 := by
  decide

/-- C8 (amended): get_events_for_notification returns exactly the events
that are active, not yet notified, and dated in the closed interval from now
to now + 24h — the upper endpoint included, since SQL BETWEEN is
inclusive. -/
theorem notification_window_closed (events : List Event) (now : Int) (e : Event) :
    e ∈ get_events_for_notification events now ↔
      e ∈ events ∧ e.is_active = true ∧ e.notification_sent = false ∧
        now ≤ e.event_date ∧ e.event_date ≤ now + one_day := by
  simp only [get_events_for_notification, List.mem_filter, Bool.and_eq_true,
    decide_eq_true_eq, Bool.not_eq_true']
  tauto

/-- C2: a webhook call whose payload fails signature verification returns
without touching the database: no payment status changes and no event gains
a participant. -/
theorem webhook_invalid_signature_noop (verify : String → String → Bool)
    (parseEvent : String → Option WebhookEvent) (db : DB) (payload sig : String)
    (h : verify payload sig = false) :
    stripe_webhook verify parseEvent db payload sig = db := by
  simp [stripe_webhook, h]

/-- Witness for webhook_invalid_signature_noop: a rejected payload leaves the
pending database untouched. -/
theorem webhook_invalid_signature_noop_witness :
    rejectAll "raw" "sig" = false ∧
      stripe_webhook rejectAll succRead pendingDB "raw" "sig" = pendingDB :=
  ⟨rfl, webhook_invalid_signature_noop rejectAll succRead pendingDB "raw" "sig" rfl⟩

/-! Helper lemmas about set_status_first and filter. -/

/-- Setting the status of the unique payment matching pid rewrites exactly
that entry of the filtered view. -/
theorem filter_set_status_first_self (l : List Payment) (pid st : String)
    (p : Payment) (h : l.filter (has_intent pid) = [p]) :
    (set_status_first l pid st).filter (has_intent pid) = [{ p with status := st }] := by
  induction l with
  | nil => simp at h
  | cons q qs ih =>
    by_cases hq : q.stripe_payment_id == pid
    · rw [List.filter_cons_of_pos (by simpa [has_intent] using hq)] at h
      obtain ⟨hqp, htail⟩ := List.cons_eq_cons.mp h
      subst hqp
      rw [set_status_first]
      simp only [hq, if_pos]
      rw [List.filter_cons_of_pos (by simpa [has_intent] using hq), htail]
    · rw [List.filter_cons_of_neg (by simpa [has_intent] using hq)] at h
      rw [set_status_first]
      simp only [hq, if_neg, Bool.false_eq_true, not_false_eq_true]
      rw [List.filter_cons_of_neg (by simpa [has_intent] using hq)]
      exact ih h

/-- Setting the status of the payment matching another intent id leaves the
filtered view for pid unchanged. -/
theorem filter_set_status_first_other (l : List Payment) (pid pid2 st : String)
    (hne : pid ≠ pid2) :
    (set_status_first l pid2 st).filter (has_intent pid) = l.filter (has_intent pid) := by
  induction l with
  | nil => rfl
  | cons q qs ih =>
    by_cases hq : q.stripe_payment_id == pid2
    · have hid : q.stripe_payment_id = pid2 := by simpa using hq
      have hnp : has_intent pid q = false := by
        simp [has_intent, hid]
        exact fun h => hne h.symm
      have hnp2 : has_intent pid { q with status := st } = false := by
        simp [has_intent, hid]
        exact fun h => hne h.symm
      rw [set_status_first]
      simp only [hq, if_pos]
      rw [List.filter_cons_of_neg (by simp [hnp2]),
        List.filter_cons_of_neg (by simp [hnp])]
    · rw [set_status_first]
      simp only [hq, Bool.false_eq_true, if_neg, not_false_eq_true]
      by_cases hp : has_intent pid q
      · rw [List.filter_cons_of_pos hp, List.filter_cons_of_pos hp, ih]
      · rw [List.filter_cons_of_neg (by simpa using hp),
          List.filter_cons_of_neg (by simpa using hp)]
        exact ih

/-- Every element of set_status_first is an original payment or carries the
written status. -/
theorem mem_set_status_first (l : List Payment) (pid st : String) (q : Payment)
    (h : q ∈ set_status_first l pid st) : q ∈ l ∨ q.status = st := by
  induction l with
  | nil => simp [set_status_first] at h
  | cons r rs ih =>
    by_cases hr : r.stripe_payment_id == pid
    · rw [set_status_first] at h
      simp only [hr, if_pos] at h
      rcases List.mem_cons.mp h with h2 | h2
      · right; rw [h2]
      · left; exact List.mem_cons_of_mem _ h2
    · rw [set_status_first] at h
      simp only [hr, Bool.false_eq_true, if_neg, not_false_eq_true] at h
      rcases List.mem_cons.mp h with h2 | h2
      · left; simp [h2]
      · rcases ih h2 with h3 | h3
        · left; exact List.mem_cons_of_mem _ h3
        · right; exact h3

/-- C3: the claimed succeeded-reconcile behavior is dead code in the
program.  bot.py line 64 imports only create_payment_intent and
format_price from payments, so the name verify_webhook_signature used at
bot.py line 962 is unbound: every webhook delivery raises NameError, which
the except clause at line 984 swallows.  Evaluating the executed handler at
the claim's own input — a payment_intent.succeeded payload for the pending
payment pi_1 of user 7 on the one-slot-left event — leaves the database
untouched: the payment stays pending and user 7 is not admitted even though
the capacity guard is off, contradicting both the claim and the intended
body of the handler. -/
theorem webhook_succeeded_is_dead_code :
    stripe_webhook_actual succRead oneSlotDB "raw" "sig" = oneSlotDB ∧
      oneSlotDB.payments.filter (has_intent "pi_1") = [pendingPayment] ∧
      pendingPayment.status = "pending" ∧
      capacity_reached oneSlotEvent = false ∧
      pendingPayment.user_id ∉ oneSlotEvent.participants := by
  decide

/-- Counterexample for C5: a verified payload reporting
payment_intent.payment_failed for an existing pending payment leaves the
database untouched — the payment's status stays pending and is never set to
failed (the handler only has a branch for payment_intent.succeeded). -/
theorem webhook_failed_status_not_recorded :
    acceptAll "raw" "sig" = true ∧
      pendingDB.payments = [pendingPayment] ∧
      pendingPayment.status = "pending" ∧
      stripe_webhook acceptAll failRead pendingDB "raw" "sig" = pendingDB := by
  decide

/-- C5 (amended): a verified payload reporting any event type other than
payment_intent.succeeded is a complete no-op: no payment status changes (in
particular no transition to failed) and no user is added to any event. -/
theorem webhook_other_status_noop (verify : String → String → Bool)
    (parseEvent : String → Option WebhookEvent) (db : DB) (payload sig : String)
    (w : WebhookEvent)
    (hv : verify payload sig = true)
    (hp : parseEvent payload = some w)
    (ht : w.eventType ≠ "payment_intent.succeeded") :
    stripe_webhook verify parseEvent db payload sig = db := by
  have hb : (w.eventType == "payment_intent.succeeded") = false := by
    simpa using ht
  simp [stripe_webhook, hv, hp, hb]

/-- Witness for webhook_other_status_noop: a verified payment_failed payload
leaves the pending database unchanged. -/
theorem webhook_other_status_noop_witness :
    acceptAll "p" "s" = true ∧
      stripe_webhook acceptAll failRead pendingDB "p" "s" = pendingDB :=
  ⟨rfl, webhook_other_status_noop acceptAll failRead pendingDB "p" "s"
    { eventType := "payment_intent.payment_failed", intentId := "pi_1" }
    rfl rfl (by decide)⟩

/-- The webhook handler either leaves the payments table alone or rewrites
the first payment matching some intent id to status succeeded. -/
theorem webhook_payments_cases (verify : String → String → Bool)
    (parseEvent : String → Option WebhookEvent) (db : DB) (payload sig : String) :
    (stripe_webhook verify parseEvent db payload sig).payments = db.payments ∨
      ∃ pid, (stripe_webhook verify parseEvent db payload sig).payments =
        set_status_first db.payments pid "succeeded" := by
  by_cases hv : verify payload sig = true
  · cases hp : parseEvent payload with
    | none => left; simp [stripe_webhook, hv, hp]
    | some w =>
      by_cases ht : (w.eventType == "payment_intent.succeeded") = true
      · cases hfl : db.payments.filter (has_intent w.intentId) with
        | nil =>
          left
          simp [stripe_webhook, hv, hp, ht, update_payment_status, hfl]
        | cons q qs =>
          cases qs with
          | nil =>
            right
            exact ⟨w.intentId, by
              simp [stripe_webhook, hv, hp, ht, update_payment_status, hfl]⟩
          | cons q2 qs2 =>
            left
            simp [stripe_webhook, hv, hp, ht, update_payment_status, hfl]
      · left
        simp [stripe_webhook, hv, hp, ht]
  · left
    simp [stripe_webhook, hv]

/-- One webhook call keeps every payment status in the set reachable by this
code: pending (initial) or succeeded (the only status the handler ever
writes). -/
theorem webhook_preserves_statusOk (verify : String → String → Bool)
    (parseEvent : String → Option WebhookEvent) (db : DB) (payload sig : String)
    (hok : ∀ q ∈ db.payments, q.status = "pending" ∨ q.status = "succeeded") :
    ∀ q ∈ (stripe_webhook verify parseEvent db payload sig).payments,
      q.status = "pending" ∨ q.status = "succeeded" := by
  intro q hq
  rcases webhook_payments_cases verify parseEvent db payload sig with h | ⟨pid, h⟩
  · exact hok q (h ▸ hq)
  · rw [h] at hq
    rcases mem_set_status_first db.payments pid "succeeded" q hq with h2 | h2
    · exact hok q h2
    · exact Or.inr h2

/-- One webhook call never changes the unique payment matching pid once that
payment's status is no longer pending (statuses reachable by this code being
pending and succeeded only). -/
theorem webhook_preserves_terminal (verify : String → String → Bool)
    (parseEvent : String → Option WebhookEvent) (db : DB) (payload sig : String)
    (pid : String) (p : Payment)
    (hok : ∀ q ∈ db.payments, q.status = "pending" ∨ q.status = "succeeded")
    (hf : db.payments.filter (has_intent pid) = [p])
    (hterm : p.status ≠ "pending") :
    (stripe_webhook verify parseEvent db payload sig).payments.filter
      (has_intent pid) = [p] := by
  have hmem : p ∈ db.payments := by
    have hp : p ∈ db.payments.filter (has_intent pid) := by
      rw [hf]; exact List.mem_singleton_self p
    exact (List.mem_filter.mp hp).1
  have hsucc : p.status = "succeeded" := by
    rcases hok p hmem with h | h
    · exact absurd h hterm
    · exact h
  rcases webhook_payments_cases verify parseEvent db payload sig with h | ⟨pid2, h⟩
  · rw [h, hf]
  · rw [h]
    by_cases hpe : pid = pid2
    · subst hpe
      rw [filter_set_status_first_self db.payments pid "succeeded" p hf]
      have hpp : ({ p with status := "succeeded" } : Payment) = p := by
        cases p
        simp only at hsucc
        rw [← hsucc]
      rw [hpp]
    · rw [filter_set_status_first_other db.payments pid pid2 "succeeded" hpe, hf]

/-- A sequence of webhook calls keeps every payment status pending or
succeeded. -/
theorem run_webhooks_preserves_statusOk (verify : String → String → Bool)
    (parseEvent : String → Option WebhookEvent) (ws : List (String × String)) :
    ∀ db : DB, (∀ q ∈ db.payments, q.status = "pending" ∨ q.status = "succeeded") →
      ∀ q ∈ (run_webhooks verify parseEvent db ws).payments,
        q.status = "pending" ∨ q.status = "succeeded" := by
  induction ws with
  | nil => intro db hok; exact hok
  | cons x rest ih =>
    intro db hok
    cases x with
    | mk payload sig =>
      exact ih _ (webhook_preserves_statusOk verify parseEvent db payload sig hok)

/-- A sequence of webhook calls never changes the unique payment matching
pid once its status is no longer pending. -/
theorem run_webhooks_preserves_terminal (verify : String → String → Bool)
    (parseEvent : String → Option WebhookEvent) (ws : List (String × String)) :
    ∀ (db : DB) (pid : String) (p : Payment),
      (∀ q ∈ db.payments, q.status = "pending" ∨ q.status = "succeeded") →
      db.payments.filter (has_intent pid) = [p] → p.status ≠ "pending" →
      (run_webhooks verify parseEvent db ws).payments.filter (has_intent pid) = [p] := by
  induction ws with
  | nil => intro db pid p _ hf _; exact hf
  | cons x rest ih =>
    intro db pid p hok hf hterm
    cases x with
    | mk payload sig =>
      exact ih _ pid p (webhook_preserves_statusOk verify parseEvent db payload sig hok)
        (webhook_preserves_terminal verify parseEvent db payload sig pid p hok hf hterm)
        hterm

/-- C4: starting from payments that are all pending, once a sequence of
webhook deliveries has moved the payment with a given intent id out of
pending, any further sequence of webhook deliveries (duplicate deliveries
for the same intent id included) leaves that payment, and in particular its
status, exactly as it is: terminal statuses are never left. -/
theorem terminal_payment_status_stable (verify : String → String → Bool)
    (parseEvent : String → Option WebhookEvent) (db0 : DB)
    (ws1 ws2 : List (String × String)) (pid : String) (p : Payment)
    (h0 : ∀ q ∈ db0.payments, q.status = "pending")
    (hf : (run_webhooks verify parseEvent db0 ws1).payments.filter
      (has_intent pid) = [p])
    (hterm : p.status ≠ "pending") :
    (run_webhooks verify parseEvent (run_webhooks verify parseEvent db0 ws1)
      ws2).payments.filter (has_intent pid) = [p] :=
  run_webhooks_preserves_terminal verify parseEvent ws2 _ pid p
    (run_webhooks_preserves_statusOk verify parseEvent ws1 db0
      (fun q hq => Or.inl (h0 q hq)))
    hf hterm

/-- Witness for terminal_payment_status_stable: one succeeded delivery moves
pi_1 to succeeded; a duplicate delivery leaves it untouched. -/
theorem terminal_payment_status_stable_witness :
    (run_webhooks acceptAll succRead pendingDB [("a", "s")]).payments.filter
        (has_intent "pi_1") = [{ pendingPayment with status := "succeeded" }] ∧
      (run_webhooks acceptAll succRead
          (run_webhooks acceptAll succRead pendingDB [("a", "s")])
          [("b", "s")]).payments.filter (has_intent "pi_1") =
        [{ pendingPayment with status := "succeeded" }] :=
  ⟨by decide,
    terminal_payment_status_stable acceptAll succRead pendingDB [("a", "s")]
      [("b", "s")] "pi_1" { pendingPayment with status := "succeeded" }
      (by decide) (by decide) (by decide)⟩

/-- C9: starting from no session, a run supplying a language choice, a valid
name (at least two characters), a shared phone contact, then the /skip
sentinel for country and for about, visits waiting_for_language,
waiting_for_name, waiting_for_phone, waiting_for_country and
waiting_for_about in that order and ends with registration_complete = true,
country = none, about = none, and the session cleared. -/
theorem registration_flow_completes (u0 : RegUser) (lang name phone : String)
    (h0 : u0.registration_complete = false) (hname : 2 ≤ name.length) :
    (reg_run (u0, noSession) [RegInput.start]).2.state =
        some RegState.waiting_for_language ∧
      (reg_run (u0, noSession) [RegInput.start, RegInput.langChoice lang]).2.state =
        some RegState.waiting_for_name ∧
      (reg_run (u0, noSession) [RegInput.start, RegInput.langChoice lang,
          RegInput.msg (some name) none]).2.state = some RegState.waiting_for_phone ∧
      (reg_run (u0, noSession) [RegInput.start, RegInput.langChoice lang,
          RegInput.msg (some name) none, RegInput.msg none (some phone)]).2.state =
        some RegState.waiting_for_country ∧
      (reg_run (u0, noSession) [RegInput.start, RegInput.langChoice lang,
          RegInput.msg (some name) none, RegInput.msg none (some phone),
          RegInput.msg (some "/skip") none]).2.state = some RegState.waiting_for_about ∧
      (reg_run (u0, noSession) [RegInput.start, RegInput.langChoice lang,
          RegInput.msg (some name) none, RegInput.msg none (some phone),
          RegInput.msg (some "/skip") none, RegInput.msg (some "/skip") none]).1.registration_complete
        = true ∧
      (reg_run (u0, noSession) [RegInput.start, RegInput.langChoice lang,
          RegInput.msg (some name) none, RegInput.msg none (some phone),
          RegInput.msg (some "/skip") none, RegInput.msg (some "/skip") none]).1.country
        = none ∧
      (reg_run (u0, noSession) [RegInput.start, RegInput.langChoice lang,
          RegInput.msg (some name) none, RegInput.msg none (some phone),
          RegInput.msg (some "/skip") none, RegInput.msg (some "/skip") none]).1.about
        = none ∧
      (reg_run (u0, noSession) [RegInput.start, RegInput.langChoice lang,
          RegInput.msg (some name) none, RegInput.msg none (some phone),
          RegInput.msg (some "/skip") none, RegInput.msg (some "/skip") none]).2.state
        = none := by
  have hlen : ¬ name.length < 2 := by omega
  refine ⟨?_, ?_, ?_, ?_, ?_, ?_, ?_, ?_, ?_⟩ <;>
    simp [reg_run, reg_step, h0, hlen, noSession]

/-- Witness for registration_flow_completes: a fresh user supplies en, the
name Alice, a phone contact, then skips country and about. -/
theorem registration_flow_completes_witness :
    freshUser.registration_complete = false ∧ 2 ≤ "Alice".length ∧
      (reg_run (freshUser, noSession) [RegInput.start, RegInput.langChoice "en",
          RegInput.msg (some "Alice") none,
          RegInput.msg none (some "+14155550123"),
          RegInput.msg (some "/skip") none,
          RegInput.msg (some "/skip") none]).1.registration_complete = true :=
  ⟨rfl, by decide,
    (registration_flow_completes freshUser "en" "Alice" "+14155550123" rfl
      (by decide)).2.2.2.2.2.1⟩
